import Mathlib

/-!
Shallow embedding of the page-cache core of a database storage engine
(buffer pool manager, clock replacer, hash-index block page),
translated from `src/buffer/clock_replacer.cpp`,
`src/buffer/buffer_pool_manager.cpp` and
`src/storage/page/hash_table_block_page.cpp`.

The embedding is sequential: each C++ member function becomes a pure
function on an explicit state record.  Latches are dropped (they only
serialise access); every other statement is translated in source order.
Disk traffic and the frame-metadata assignment relevant to write-back
ordering are additionally recorded in an append-only event trace so that
"A happens before B" claims become index-ordering facts about the trace.
-/

set_option maxHeartbeats 1000000

namespace BusTub

/-! ## Clock replacer (`src/buffer/clock_replacer.cpp`)

`clock` is the `std::vector<std::pair<char,char>>` of
`(present, ref)` entries (`EXISTS`/`NOT_EXISTS`, `REF`/`NO_REF`),
modelled as a total function from indices together with its length. -/

structure ClockState where
  clock : Nat → Bool × Bool
  clockLen : Nat
  hand : Nat
  size : Nat

/-- Constructor `ClockReplacer::ClockReplacer(num_pages)`: fills the vector with
`(NOT_EXISTS, NO_REF)` entries; `hand` and `size` start at zero. -/
def ClockReplacer.init (num_pages : Nat) : ClockState :=
  { clock := fun _ => (false, false), clockLen := num_pages, hand := 0, size := 0 }

/-- Body of the `while (true)` sweep of `ClockReplacer::Victim`, with an
explicit fuel argument (the C++ loop has no bound; termination for
well-formed states is proved below).  Returns the selected frame index
and the updated entry vector; the hand at return equals the victim index
because the source returns before the final `hand = (hand + 1) % size`. -/
def victimLoop (n : Nat) : Nat → (Nat → Bool × Bool) → Nat → Option (Nat × (Nat → Bool × Bool))
  | 0, _, _ => none
  | fuel + 1, clock, hand =>
    let e := clock hand
    if e.1 then
      if e.2 then
        victimLoop n fuel (Function.update clock hand (true, false)) ((hand + 1) % n)
      else
        some (hand, Function.update clock hand (false, e.2))
    else
      victimLoop n fuel clock ((hand + 1) % n)

/-- Operation `ClockReplacer::Victim(frame_id)`: returns `none` (C++ `false`) when
`size == 0`; otherwise runs the sweep.  The fuel `n*n + n` is shown
sufficient for every state whose `size` counts the present entries. -/
def ClockReplacer.Victim (s : ClockState) : Option Nat × ClockState :=
  if s.size = 0 then (none, s)
  else
    match victimLoop s.clockLen (s.clockLen * s.clockLen + s.clockLen) s.clock s.hand with
    | some (v, c) => (some v, { s with clock := c, hand := v, size := s.size - 1 })
    | none => (none, s)

/-- Effect of `ClockReplacer::Pin(frame_id)` on the entry vector and the
size counter (the in-bounds access; the assertion and the vector bound
are modelled separately in `ClockReplacer.PinChecked`). -/
def pinEffect (s : ClockState) (f : Nat) : ClockState :=
  if (s.clock f).1 then
    { s with clock := Function.update s.clock f (false, false), size := s.size - 1 }
  else
    { s with clock := Function.update s.clock f ((s.clock f).1, false) }

/-- Effect of `ClockReplacer::Unpin(frame_id)`. -/
def unpinEffect (s : ClockState) (f : Nat) : ClockState :=
  if (s.clock f).1 then
    { s with clock := Function.update s.clock f (true, true) }
  else
    { s with clock := Function.update s.clock f (true, true), size := s.size + 1 }

/-- The guard `assert(static_cast<size_t>(frame_id) <= clock.size())`
at the top of `Pin`/`Unpin`: a negative `frame_id` casts to a huge
unsigned value, so the assertion passes exactly for `0 ≤ f ≤ clockLen`. -/
def clockIndexAssert (s : ClockState) (frame_id : Int) : Prop :=
  0 ≤ frame_id ∧ frame_id.toNat ≤ s.clockLen

/-- Access `clock[frame_id]` is an in-bounds vector access exactly for
`0 ≤ f < clockLen`. -/
def clockIndexInBounds (s : ClockState) (frame_id : Int) : Prop :=
  0 ≤ frame_id ∧ frame_id.toNat < s.clockLen

instance (s : ClockState) (f : Int) : Decidable (clockIndexAssert s f) := by
  unfold clockIndexAssert; infer_instance

instance (s : ClockState) (f : Int) : Decidable (clockIndexInBounds s f) := by
  unfold clockIndexInBounds; infer_instance

/-- Operation `ClockReplacer::Pin` as called with an arbitrary `frame_id_t`:
`none` models an aborted assertion or an out-of-bounds `clock[frame_id]`. -/
def ClockReplacer.PinChecked (s : ClockState) (frame_id : Int) : Option ClockState :=
  if clockIndexAssert s frame_id then
    if clockIndexInBounds s frame_id then some (pinEffect s frame_id.toNat) else none
  else none

/-- Operation `ClockReplacer::Unpin` with the same guard structure. -/
def ClockReplacer.UnpinChecked (s : ClockState) (frame_id : Int) : Option ClockState :=
  if clockIndexAssert s frame_id then
    if clockIndexInBounds s frame_id then some (unpinEffect s frame_id.toNat) else none
  else none

/-- Operation `ClockReplacer::Size()`. -/
def ClockReplacer.SizeOf (s : ClockState) : Nat := s.size

/-! ### Counting helpers for the replacer invariant -/

/-- Number of indices below `n` whose entry satisfies `p`. -/
def cntP (n : Nat) (clock : Nat → Bool × Bool) (p : Bool × Bool → Bool) : Nat :=
  ((Finset.range n).filter (fun j => p (clock j) = true)).card

/-- Number of present entries. -/
def presentCnt (n : Nat) (clock : Nat → Bool × Bool) : Nat :=
  cntP n clock (fun e => e.1)

/-- Number of present entries whose ref bit is set. -/
def refCnt (n : Nat) (clock : Nat → Bool × Bool) : Nat :=
  cntP n clock (fun e => e.1 && e.2)

/-- The well-formedness invariant every reachable replacer state enjoys:
`size` counts the present entries and the hand is in range. -/
def ReplacerWF (s : ClockState) : Prop :=
  s.size = presentCnt s.clockLen s.clock ∧ (s.clockLen ≠ 0 → s.hand < s.clockLen)

instance (s : ClockState) : Decidable (ReplacerWF s) := by
  unfold ReplacerWF; infer_instance

/-- Position of slot `x` in sweep order starting at `hand`
(0 for the hand itself, 1 for the next slot inspected, ...). -/
def distFrom (n hand x : Nat) : Nat := (x + n - hand) % n

/-- What one successful sweep establishes, relating the initial entry
vector `clock` and hand position to the selected victim `v` and the
final entry vector: the victim was present, its entry ends `(false, false)`;
presence of every other slot is untouched; ref bits are never set;
every present slot strictly before the victim in sweep order has had its
ref bit cleared; and the number of present entries drops by exactly one. -/
structure VictimPost (n : Nat) (clock : Nat → Bool × Bool) (hand : Nat)
    (v : Nat) (c' : Nat → Bool × Bool) : Prop where
  v_lt : v < n
  v_present : (clock v).1 = true
  v_cleared : c' v = (false, false)
  others_present : ∀ j, j ≠ v → (c' j).1 = (clock j).1
  others_ref : ∀ j, j ≠ v → (c' j).2 = true → (clock j).2 = true
  passed : ∀ j, j ≠ v → j < n → (clock j).1 = true →
      distFrom n hand j < distFrom n hand v → (c' j).2 = false
  cnt : presentCnt n c' + 1 = presentCnt n clock

/-! ## Buffer pool manager (`src/buffer/buffer_pool_manager.cpp`)

Machine integers: `page_id_t` and the pin count are C `int`s, modelled
as `Int` (no arithmetic in the source can overflow 32 bits under the
disk manager's dense-id contract, so no wrap-around is modelled);
frame ids are array indices, modelled as `Nat`.  A page's byte buffer
is modelled as a total function from byte offsets. -/

def INVALID_PAGE_ID : Int := -1

/-- The in-memory frame (`Page` object): resident page id, pin count,
dirty flag and the `PAGE_SIZE`-byte buffer.  The per-frame latch is
dropped (sequential model). -/
structure Page where
  page_id : Int
  pin_count : Int
  is_dirty : Bool
  data : Nat → Nat

/-- Modelled from the spec: the `Page` class itself is not under `src/`
(only its uses are).  Per §3, a frame starts empty (`page_id ==
INVALID_PAGE_ID`, pin count 0, clean) and per the §8 law
"`NewPage → p; Fetch(p)` returns the same frame bytes (all zero)"
its buffer starts zeroed. -/
def Page.empty : Page :=
  { page_id := INVALID_PAGE_ID, pin_count := 0, is_dirty := false, data := fun _ => 0 }

/-- One entry of the append-only trace of externally visible actions:
disk traffic plus the `page_id_` assignment of the replacement
procedure, recorded in source order so that write-back ordering claims
become index-ordering facts. -/
inductive Event where
  | diskWrite : Int → (Nat → Nat) → Event
  | diskRead : Int → Event
  | diskAlloc : Int → Event
  | diskDealloc : Int → Event
  | setPageId : Nat → Int → Event

/-- Modelled from the spec: the `DiskManager` is an external collaborator
(§6): `ReadPage`/`WritePage` move `PAGE_SIZE` bytes for a page id and
`AllocatePage` returns fresh dense ids produced monotonically. -/
structure DiskManager where
  store : Int → Nat → Nat
  nextPageId : Int

/-- The buffer pool manager state: frame array, page table, free list,
replacer, disk, and the event trace. -/
structure BPM where
  pool_size : Nat
  pages : Nat → Page
  page_table : Int → Option Nat
  free_list : List Nat
  replacer : ClockState
  disk : DiskManager
  events : List Event

/-- Constructor `BufferPoolManager::BufferPoolManager`: all frames empty and on the
free list, the replacer sized to the pool.  (Frame construction is
modelled from the spec via `Page.empty`, see there.) -/
def BPM.init (pool_size : Nat) (disk : DiskManager) : BPM :=
  { pool_size := pool_size
    pages := fun _ => Page.empty
    page_table := fun _ => none
    free_list := List.range pool_size
    replacer := ClockReplacer.init pool_size
    disk := disk
    events := [] }

/-- Call `disk_manager_->WritePage(pid, data)` with its trace entry. -/
def diskWriteOp (s : BPM) (pid : Int) (d : Nat → Nat) : BPM :=
  { s with disk := { s.disk with store := Function.update s.disk.store pid d }
           events := s.events ++ [Event.diskWrite pid d] }

/-- Tail of `BufferPoolManager::ReplaceAndUpdate`: update the chosen
frame's metadata (`page_id_ = new_page_id; pin_count_ = 1;
is_dirty_ = new_page`) and return it.  The `page_id_` store is traced. -/
def raFinalize (s : BPM) (index : Nat) (new_page_id : Int) (new_page : Bool) : Nat × BPM :=
  let page := s.pages index
  (index,
    { s with
      pages := Function.update s.pages index
        ({ page with page_id := new_page_id, pin_count := 1, is_dirty := new_page })
      events := s.events ++ [Event.setPageId index new_page_id] })

/-- Operation `BufferPoolManager::ReplaceAndUpdate(new_page_id, new_page)`:
take a frame from the free list if possible, otherwise evict the
replacer's victim (writing it back first when dirty); read the new page
from disk unless `new_page`, in which case the victim branch zeroes the
buffer (`ResetMemory`; the free-list branch does not touch the bytes).
The caller guarantees a candidate exists; if the victim call ever
failed, the C++ would read an uninitialised index, so that branch is
modelled as an inert result. -/
def ReplaceAndUpdate (s : BPM) (new_page_id : Int) (new_page : Bool) : Nat × BPM :=
  match s.free_list with
  | index :: rest =>
    let s1 := { s with free_list := rest
                       page_table := Function.update s.page_table new_page_id (some index) }
    let s2 :=
      if new_page then s1
      else
        { s1 with
          pages := Function.update s1.pages index
            ({ s1.pages index with data := s1.disk.store new_page_id })
          events := s1.events ++ [Event.diskRead new_page_id] }
    raFinalize s2 index new_page_id new_page
  | [] =>
    match ClockReplacer.Victim s.replacer with
    | (some index, repl1) =>
      let page := s.pages index
      let s1 := { s with
        replacer := pinEffect repl1 index
        page_table := Function.update (Function.update s.page_table page.page_id none)
          new_page_id (some index) }
      let s2 := if page.is_dirty then diskWriteOp s1 page.page_id page.data else s1
      let s3 :=
        if new_page then
          { s2 with
            pages :=
              Function.update s2.pages index ({ s2.pages index with data := fun _ => 0 }) }
        else
          { s2 with
            pages :=
              Function.update s2.pages index
                ({ s2.pages index with data := s2.disk.store new_page_id })
            events := s2.events ++ [Event.diskRead new_page_id] }
      raFinalize s3 index new_page_id new_page
    | (none, _) => (0, s)

/-- Operation `BufferPoolManager::FetchPageImpl(page_id)`: `none` models the
`nullptr` return. -/
def FetchPage (s : BPM) (page_id : Int) : Option Nat × BPM :=
  match s.page_table page_id with
  | some index =>
    let page := s.pages index
    let pc := page.pin_count + 1
    let s1 := { s with pages := Function.update s.pages index ({ page with pin_count := pc }) }
    let s2 := if pc > 0 then { s1 with replacer := pinEffect s1.replacer index } else s1
    (some index, s2)
  | none =>
    if s.free_list = [] ∧ s.replacer.size = 0 then (none, s)
    else
      let r := ReplaceAndUpdate s page_id false
      (some r.1, r.2)

/-- Operation `BufferPoolManager::NewPageImpl(page_id)`: result is
(frame or null, value stored through the `page_id` out-parameter,
new state). -/
def NewPage (s : BPM) : Option Nat × Int × BPM :=
  if s.free_list = [] ∧ s.replacer.size = 0 then (none, INVALID_PAGE_ID, s)
  else
    let id := s.disk.nextPageId
    let s1 := { s with disk := { s.disk with nextPageId := id + 1 }
                       events := s.events ++ [Event.diskAlloc id] }
    let r := ReplaceAndUpdate s1 id true
    (some r.1, id, r.2)

/-- Operation `BufferPoolManager::UnpinPageImpl(page_id, is_dirty)`: the source
dereferences the page-table lookup without testing for absence, so a
miss is undefined behaviour, modelled as `none`. -/
def UnpinPage (s : BPM) (page_id : Int) (is_dirty : Bool) : Option (Bool × BPM) :=
  match s.page_table page_id with
  | none => none
  | some frame_index =>
    let page := s.pages frame_index
    if page.pin_count ≤ 0 then some (false, s)
    else
      let pc := page.pin_count - 1
      let repl := if pc = 0 then unpinEffect s.replacer frame_index else s.replacer
      some (true,
        { s with
          pages := Function.update s.pages frame_index
            ({ page with pin_count := pc, is_dirty := page.is_dirty || is_dirty })
          replacer := repl })

/-- Operation `BufferPoolManager::FlushPageImpl(page_id)`. -/
def FlushPage (s : BPM) (page_id : Int) : Bool × BPM :=
  match s.page_table page_id with
  | none => (false, s)
  | some f =>
    let page := s.pages f
    if page.page_id ≠ INVALID_PAGE_ID ∧ page.is_dirty then
      (true, diskWriteOp
        { s with pages := Function.update s.pages f ({ page with is_dirty := false }) }
        page.page_id page.data)
    else (true, s)

/-- Operation `BufferPoolManager::DeletePageImpl(page_id)`.  Note the source
returns `false` at the end of the successful deletion path. -/
def DeletePage (s : BPM) (page_id : Int) : Bool × BPM :=
  match s.page_table page_id with
  | none => (true, { s with events := s.events ++ [Event.diskDealloc page_id] })
  | some index =>
    let page := s.pages index
    if page.pin_count > 0 then (false, s)
    else
      let s1 := { s with
        replacer := pinEffect s.replacer index
        page_table := Function.update s.page_table page_id none
        free_list := s.free_list ++ [index] }
      let s2 := { s1 with events := s1.events ++ [Event.diskDealloc page_id] }
      let s3 := { s2 with
        pages := Function.update s2.pages index
          ({ page with data := fun _ => 0, page_id := INVALID_PAGE_ID, is_dirty := false }) }
      (false, s3)

/-- Body of the loop of `BufferPoolManager::FlushAllPagesImpl` for one
frame index. -/
def flushFrame (s : BPM) (i : Nat) : BPM :=
  let page := s.pages i
  if page.page_id ≠ INVALID_PAGE_ID ∧ page.is_dirty then
    diskWriteOp
      { s with pages := Function.update s.pages i ({ page with is_dirty := false }) }
      page.page_id page.data
  else s

/-- Operation `BufferPoolManager::FlushAllPagesImpl()`. -/
def FlushAllPages (s : BPM) : BPM :=
  (List.range s.pool_size).foldl flushFrame s

/-- The invariant that every frame sitting on the free list holds a
zeroed buffer (established at construction and re-established by
`DeletePage`, the only operation that pushes a frame back). -/
def FreeListZero (s : BPM) : Prop :=
  ∀ f ∈ s.free_list, ∀ b, (s.pages f).data b = 0

/-! ## Hash block page (`src/storage/page/hash_table_block_page.cpp`)

The two `std::atomic_char` bit maps are modelled as byte arrays
(`Nat → Nat`, byte index to byte value); the slot array as a function
to key/value pairs. -/

/-- The MSB-first mask table `N_TH_BIT_MASK`. -/
def N_TH_BIT_MASK : Nat → Nat
  | 0 => 0b10000000
  | 1 => 0b01000000
  | 2 => 0b00100000
  | 3 => 0b00010000
  | 4 => 0b00001000
  | 5 => 0b00000100
  | 6 => 0b00000010
  | 7 => 0b00000001
  | _ => 0

/-- Helper `GET_N_TH_BIT(char_arr, bucket_ind)`. -/
def GET_N_TH_BIT (char_arr : Nat → Nat) (bucket_ind : Nat) : Bool :=
  (char_arr (bucket_ind / 8)) &&& N_TH_BIT_MASK (bucket_ind % 8) ≠ 0

/-- Helper `SET_N_TH_BIT(char_arr, bucket_ind)`. -/
def SET_N_TH_BIT (char_arr : Nat → Nat) (bucket_ind : Nat) : Nat → Nat :=
  Function.update char_arr (bucket_ind / 8)
    ((char_arr (bucket_ind / 8)) ||| N_TH_BIT_MASK (bucket_ind % 8))

/-- Helper `UNSET_N_TH_BIT(char_arr, bucket_ind)`: `&= ~mask` on an 8-bit char
is a conjunction with the mask's complement in `255`. -/
def UNSET_N_TH_BIT (char_arr : Nat → Nat) (bucket_ind : Nat) : Nat → Nat :=
  Function.update char_arr (bucket_ind / 8)
    ((char_arr (bucket_ind / 8)) &&& (255 ^^^ N_TH_BIT_MASK (bucket_ind % 8)))

/-- Constant `PAGE_SIZE` (§6 of the spec; `common/config.h` is not under `src/`). -/
def PAGE_SIZE : Nat := 4096

/-- Modelled from the spec: `BLOCK_ARRAY_SIZE` is defined in
`hash_table_page_defs.h`, which is not under `src/`; §6 gives
`floor((PAGE_SIZE · 8) / (8 · sizeof(pair) + 2))` for a key/value pair
of `pairSize` bytes. -/
def BLOCK_ARRAY_SIZE (pairSize : Nat) : Nat :=
  (PAGE_SIZE * 8) / (8 * pairSize + 2)

/-- Layout `HashTableBlockPage`: the `occupied_` and `readable_` bit maps and
the `array_` of key/value pairs laid out on a frame. -/
structure HashTableBlockPage (K V : Type) where
  occupied : Nat → Nat
  readable : Nat → Nat
  array : Nat → K × V

namespace HashTableBlockPage

variable {K V : Type}

/-- Operation `HASH_TABLE_BLOCK_TYPE::KeyAt(bucket_ind)`. -/
def KeyAt (p : HashTableBlockPage K V) (bucket_ind : Nat) : K :=
  (p.array bucket_ind).1

/-- Operation `HASH_TABLE_BLOCK_TYPE::ValueAt(bucket_ind)`. -/
def ValueAt (p : HashTableBlockPage K V) (bucket_ind : Nat) : V :=
  (p.array bucket_ind).2

/-- Operation `HASH_TABLE_BLOCK_TYPE::Insert(bucket_ind, key, value)`. -/
def Insert (p : HashTableBlockPage K V) (bucket_ind : Nat) (key : K) (value : V) :
    Bool × HashTableBlockPage K V :=
  if GET_N_TH_BIT p.readable bucket_ind then (false, p)
  else
    (true,
      { p with
        occupied := SET_N_TH_BIT p.occupied bucket_ind
        readable := SET_N_TH_BIT p.readable bucket_ind
        array := Function.update p.array bucket_ind (key, value) })

/-- Operation `HASH_TABLE_BLOCK_TYPE::Remove(bucket_ind)`. -/
def Remove (p : HashTableBlockPage K V) (bucket_ind : Nat) : HashTableBlockPage K V :=
  { p with readable := UNSET_N_TH_BIT p.readable bucket_ind }

/-- Operation `HASH_TABLE_BLOCK_TYPE::IsOccupied(bucket_ind)`. -/
def IsOccupied (p : HashTableBlockPage K V) (bucket_ind : Nat) : Bool :=
  GET_N_TH_BIT p.occupied bucket_ind

/-- Operation `HASH_TABLE_BLOCK_TYPE::IsReadable(bucket_ind)`. -/
def IsReadable (p : HashTableBlockPage K V) (bucket_ind : Nat) : Bool :=
  GET_N_TH_BIT p.readable bucket_ind

end HashTableBlockPage

/-! ## Concrete states used by counterexamples and witnesses -/

/-- Two present slots with clear ref bits, hand at 0. -/
def clockTwoReady : ClockState :=
  { clock := fun _ => (true, false), clockLen := 2, hand := 0, size := 2 }

/-- One present slot with a set ref bit. -/
def clockOneRef : ClockState :=
  { clock := fun _ => (true, true), clockLen := 1, hand := 0, size := 1 }

/-- A one-frame pool whose frame 0 holds page 5, unpinned and clean. -/
def bpmOnePage : BPM :=
  { pool_size := 1
    pages := fun _ =>
      { page_id := 5, pin_count := 0, is_dirty := false, data := fun _ => 0 }
    page_table := fun p => if p = 5 then some 0 else none
    free_list := []
    replacer := { clock := fun _ => (true, false), clockLen := 1, hand := 0, size := 1 }
    disk := { store := fun _ _ => 0, nextPageId := 6 }
    events := [] }

/-- A one-frame pool whose frame 0 holds page 7, pinned once and dirty,
with recognisable buffer bytes. -/
def bpmPinnedDirty : BPM :=
  { pool_size := 1
    pages := fun _ =>
      { page_id := 7, pin_count := 1, is_dirty := true, data := fun b => b + 1 }
    page_table := fun p => if p = 7 then some 0 else none
    free_list := []
    replacer := { clock := fun _ => (false, false), clockLen := 1, hand := 0, size := 0 }
    disk := { store := fun _ _ => 0, nextPageId := 8 }
    events := [] }

/-- A one-frame pool whose frame 0 holds page 3, unpinned and dirty
(so it is the replacer's victim candidate), with recognisable bytes. -/
def bpmDirtyVictim : BPM :=
  { pool_size := 1
    pages := fun _ =>
      { page_id := 3, pin_count := 0, is_dirty := true, data := fun b => b + 2 }
    page_table := fun p => if p = 3 then some 0 else none
    free_list := []
    replacer := { clock := fun _ => (true, false), clockLen := 1, hand := 0, size := 1 }
    disk := { store := fun _ _ => 0, nextPageId := 4 }
    events := [] }

/-- An empty two-frame pool with both frames on the free list. -/
def bpmFresh : BPM := BPM.init 2 { store := fun _ _ => 0, nextPageId := 0 }

/-- A concrete block page with every bit clear. -/
def blockEmpty : HashTableBlockPage Nat Nat :=
  { occupied := fun _ => 0, readable := fun _ => 0, array := fun _ => (0, 0) }

lemma cntP_congr {n : Nat} {c c' : Nat → Bool × Bool} {p : Bool × Bool → Bool}
    (h : ∀ j, j < n → p (c j) = p (c' j)) : cntP n c p = cntP n c' p := by
  unfold cntP
  congr 1
  refine Finset.filter_congr ?_
  intro j hj
  rw [h j (Finset.mem_range.mp hj)]

lemma cntP_le (n : Nat) (c : Nat → Bool × Bool) (p : Bool × Bool → Bool) :
    cntP n c p ≤ n := by
  calc cntP n c p ≤ (Finset.range n).card := Finset.card_filter_le _ _
    _ = n := Finset.card_range n

lemma cntP_update_self {n : Nat} {c : Nat → Bool × Bool} {p : Bool × Bool → Bool}
    {h : Nat} {e : Bool × Bool} (hp : p e = p (c h)) :
    cntP n (Function.update c h e) p = cntP n c p := by
  refine cntP_congr (fun j _ => ?_)
  by_cases hj : j = h
  · subst hj; rw [Function.update_same, hp]
  · rw [Function.update_noteq hj]

lemma cntP_update_drop {n : Nat} {c : Nat → Bool × Bool} {p : Bool × Bool → Bool}
    {h : Nat} {e : Bool × Bool} (hn : h < n) (hc : p (c h) = true) (he : p e = false) :
    cntP n (Function.update c h e) p + 1 = cntP n c p := by
  unfold cntP
  have hfilter : (Finset.range n).filter (fun j => p (Function.update c h e j) = true)
      = ((Finset.range n).filter (fun j => p (c j) = true)).erase h := by
    ext j
    simp only [Finset.mem_filter, Finset.mem_erase, Finset.mem_range]
    constructor
    · intro ⟨hjn, hpj⟩
      by_cases hj : j = h
      · subst hj; rw [Function.update_same, he] at hpj; cases hpj
      · rw [Function.update_noteq hj] at hpj; exact ⟨hj, hjn, hpj⟩
    · intro ⟨hj, hjn, hpj⟩
      exact ⟨hjn, by rw [Function.update_noteq hj]; exact hpj⟩
  have hmem : h ∈ (Finset.range n).filter (fun j => p (c j) = true) :=
    Finset.mem_filter.mpr ⟨Finset.mem_range.mpr hn, hc⟩
  have hpos : 0 < ((Finset.range n).filter (fun j => p (c j) = true)).card :=
    Finset.card_pos.mpr ⟨h, hmem⟩
  rw [hfilter, Finset.card_erase_of_mem hmem]
  omega

lemma cntP_pos_exists {n : Nat} {c : Nat → Bool × Bool} {p : Bool × Bool → Bool}
    (hpos : 0 < cntP n c p) : ∃ j, j < n ∧ p (c j) = true := by
  unfold cntP at hpos
  obtain ⟨j, hj⟩ := Finset.card_pos.mp hpos
  have := Finset.mem_filter.mp hj
  exact ⟨j, Finset.mem_range.mp this.1, this.2⟩

/-! ### Sweep distance lemmas -/

lemma distFrom_closed {n hand x : Nat} (hh : hand < n) (hx : x < n) :
    distFrom n hand x = if hand ≤ x then x - hand else x + n - hand := by
  unfold distFrom
  by_cases hle : hand ≤ x
  · have h1 : x + n - hand = (x - hand) + n := by omega
    rw [if_pos hle, h1, Nat.add_mod_right, Nat.mod_eq_of_lt (by omega)]
  · rw [if_neg hle, Nat.mod_eq_of_lt (by omega)]

lemma distFrom_self {n hand : Nat} (hh : hand < n) : distFrom n hand hand = 0 := by
  rw [distFrom_closed hh hh, if_pos (le_refl hand), Nat.sub_self]

lemma distFrom_step {n hand x : Nat} (hh : hand < n) (hx : x < n) (hne : x ≠ hand) :
    distFrom n ((hand + 1) % n) x = distFrom n hand x - 1 ∧ 0 < distFrom n hand x := by
  have hn : 0 < n := by omega
  by_cases hend : hand + 1 = n
  · have h0 : (hand + 1) % n = 0 := by rw [hend, Nat.mod_self]
    rw [h0, distFrom_closed hn hx, distFrom_closed hh hx]
    have hxlt : x < hand := by omega
    rw [if_pos (Nat.zero_le x), if_neg (by omega)]
    omega
  · have h1 : (hand + 1) % n = hand + 1 := Nat.mod_eq_of_lt (by omega)
    rw [h1, distFrom_closed (by omega) hx, distFrom_closed hh hx]
    by_cases hle : hand + 1 ≤ x
    · rw [if_pos hle, if_pos (by omega)]; omega
    · have hxlt : x < hand := by omega
      rw [if_neg hle, if_neg (by omega)]; omega

/-! ### Soundness and termination of the victim sweep -/

lemma victimLoop_sound {n : Nat} : ∀ (fuel : Nat) (clock : Nat → Bool × Bool) (hand : Nat),
    hand < n → 0 < presentCnt n clock →
    (∃ k, (clock ((hand + k) % n)).1 = true ∧ refCnt n clock * n + k < fuel) →
    ∃ v c', victimLoop n fuel clock hand = some (v, c') ∧ VictimPost n clock hand v c' := by
  intro fuel
  induction fuel with
  | zero =>
    intro clock hand _ _ hex
    obtain ⟨k, _, hk⟩ := hex
    omega
  | succ fuel ih =>
    intro clock hand hh hpres hex
    have hn : 0 < n := by omega
    by_cases e1 : (clock hand).1 = true
    · by_cases e2 : (clock hand).2 = true
      · -- present with ref set: clear the ref bit and advance
        set clock' := Function.update clock hand (true, false) with hc'
        have hstep : victimLoop n (fuel + 1) clock hand
            = victimLoop n fuel clock' ((hand + 1) % n) := by
          show (if (clock hand).1 = true then _ else _) = _
          rw [if_pos e1, if_pos e2]
        have hrefdrop : refCnt n clock' + 1 = refCnt n clock := by
          refine cntP_update_drop hh ?_ ?_
          · simp [e1, e2]
          · simp
        have hprs : presentCnt n clock' = presentCnt n clock := by
          refine cntP_update_self ?_
          simp [e1]
        have hh' : (hand + 1) % n < n := Nat.mod_lt _ hn
        obtain ⟨k, _, hk⟩ := hex
        have hex' : ∃ k', (clock' (((hand + 1) % n + k') % n)).1 = true ∧
            refCnt n clock' * n + k' < fuel := by
          refine ⟨n - 1, ?_, ?_⟩
          · have harith : ((hand + 1) % n + (n - 1)) % n = hand := by
              rw [Nat.mod_add_mod]
              have : hand + 1 + (n - 1) = hand + n := by omega
              rw [this, Nat.add_mod_right, Nat.mod_eq_of_lt hh]
            rw [harith, hc', Function.update_same]
          · have hmul : refCnt n clock * n = refCnt n clock' * n + n := by
              rw [← hrefdrop]; ring
            omega
        obtain ⟨v, c', heq, post⟩ := ih clock' ((hand + 1) % n) hh' (hprs ▸ hpres) hex'
        refine ⟨v, c', hstep ▸ heq, ?_⟩
        have hclock'_ne : ∀ j, j ≠ hand → clock' j = clock j := by
          intro j hj; rw [hc', Function.update_noteq hj]
        constructor
        · exact post.v_lt
        · by_cases hv : v = hand
          · rw [hv]; exact e1
          · rw [← hclock'_ne v hv]; exact post.v_present
        · exact post.v_cleared
        · intro j hj
          by_cases hjh : j = hand
          · subst hjh
            rw [post.others_present j hj, hc', Function.update_same]
            exact e1.symm
          · rw [post.others_present j hj, hclock'_ne j hjh]
        · intro j hj hc2
          by_cases hjh : j = hand
          · subst hjh; exact e2
          · have := post.others_ref j hj hc2
            rw [hclock'_ne j hjh] at this; exact this
        · intro j hj hjn hjp hdist
          by_cases hjh : j = hand
          · subst hjh
            cases hcc : (c' j).2 with
            | false => rfl
            | true =>
              have := post.others_ref j hj hcc
              rw [hc', Function.update_same] at this
              cases this
          · by_cases hv : v = hand
            · rw [hv, distFrom_self hh] at hdist; omega
            · have hdj := distFrom_step hh hjn hjh
              have hdv := distFrom_step hh post.v_lt hv
              refine post.passed j hj hjn ?_ ?_
              · rw [hclock'_ne j hjh]; exact hjp
              · omega
        · rw [post.cnt, hprs]
      · -- present with ref clear: this slot is the victim
        have e2' : (clock hand).2 = false := by
          cases h : (clock hand).2
          · rfl
          · exact absurd h e2
        refine ⟨hand, Function.update clock hand (false, (clock hand).2), ?_, ?_⟩
        · show (if (clock hand).1 = true then _ else _) = _
          rw [if_pos e1, if_neg e2]
        · constructor
          · exact hh
          · exact e1
          · rw [Function.update_same, e2']
          · intro j hj; rw [Function.update_noteq hj]
          · intro j hj; rw [Function.update_noteq hj]; exact fun h => h
          · intro j hj _ _ hdist
            rw [distFrom_self hh] at hdist; omega
          · refine cntP_update_drop hh e1 rfl
    · -- absent slot: skip and advance
      have hstep : victimLoop n (fuel + 1) clock hand
          = victimLoop n fuel clock ((hand + 1) % n) := by
        show (if (clock hand).1 = true then _ else _) = _
        rw [if_neg e1]
      have hh' : (hand + 1) % n < n := Nat.mod_lt _ hn
      obtain ⟨k, hkp, hk⟩ := hex
      have hk0 : k ≠ 0 := by
        intro h0
        rw [h0, Nat.add_zero, Nat.mod_eq_of_lt hh] at hkp
        exact e1 hkp
      obtain ⟨k', rfl⟩ : ∃ k', k = k' + 1 := ⟨k - 1, by omega⟩
      have hex' : ∃ k'', (clock (((hand + 1) % n + k'') % n)).1 = true ∧
          refCnt n clock * n + k'' < fuel := by
        refine ⟨k', ?_, by omega⟩
        rw [Nat.mod_add_mod]
        have : hand + 1 + k' = hand + (k' + 1) := by omega
        rw [this]
        exact hkp
      obtain ⟨v, c', heq, post⟩ := ih clock ((hand + 1) % n) hh' hpres hex'
      refine ⟨v, c', hstep ▸ heq, ?_⟩
      have hvh : v ≠ hand := by
        intro h
        have := post.v_present
        rw [h] at this
        exact e1 this
      constructor
      · exact post.v_lt
      · exact post.v_present
      · exact post.v_cleared
      · exact post.others_present
      · exact post.others_ref
      · intro j hj hjn hjp hdist
        by_cases hjh : j = hand
        · subst hjh; exact absurd hjp e1
        · have hdj := distFrom_step hh hjn hjh
          have hdv := distFrom_step hh post.v_lt hvh
          exact post.passed j hj hjn hjp (by omega)
      · exact post.cnt

/-- For every well-formed replacer state with a positive size counter,
the sweep succeeds within the fuel budget and satisfies `VictimPost`. -/
lemma Victim_of_size_pos (s : ClockState) (hwf : ReplacerWF s) (hs : s.size ≠ 0) :
    ∃ v c', ClockReplacer.Victim s
        = (some v, { s with clock := c', hand := v, size := s.size - 1 }) ∧
      VictimPost s.clockLen s.clock s.hand v c' := by
  obtain ⟨hcnt, hhand⟩ := hwf
  have hpres : 0 < presentCnt s.clockLen s.clock := by omega
  have hn : s.clockLen ≠ 0 := by
    intro h0
    have : presentCnt s.clockLen s.clock = 0 := by
      unfold presentCnt cntP
      rw [h0]
      simp
    omega
  have hh : s.hand < s.clockLen := hhand hn
  obtain ⟨j, hjn, hjp⟩ := cntP_pos_exists hpres
  have hex : ∃ k, (s.clock ((s.hand + k) % s.clockLen)).1 = true ∧
      refCnt s.clockLen s.clock * s.clockLen + k
        < s.clockLen * s.clockLen + s.clockLen := by
    refine ⟨(j + s.clockLen - s.hand) % s.clockLen, ?_, ?_⟩
    · have : (s.hand + (j + s.clockLen - s.hand) % s.clockLen) % s.clockLen = j := by
        rw [Nat.add_mod_mod]
        have h1 : s.hand + (j + s.clockLen - s.hand) = j + s.clockLen := by omega
        rw [h1, Nat.add_mod_right, Nat.mod_eq_of_lt hjn]
      rw [this]; exact hjp
    · have h1 : refCnt s.clockLen s.clock ≤ s.clockLen := cntP_le _ _ _
      have h2 : (j + s.clockLen - s.hand) % s.clockLen < s.clockLen :=
        Nat.mod_lt _ (by omega)
      calc refCnt s.clockLen s.clock * s.clockLen + (j + s.clockLen - s.hand) % s.clockLen
          < refCnt s.clockLen s.clock * s.clockLen + s.clockLen := by omega
        _ ≤ s.clockLen * s.clockLen + s.clockLen := by
            have := Nat.mul_le_mul_right s.clockLen h1
            omega
  obtain ⟨v, c', heq, post⟩ := victimLoop_sound _ s.clock s.hand hh hpres hex
  refine ⟨v, c', ?_, post⟩
  unfold ClockReplacer.Victim
  rw [if_neg hs, heq]

/-- C5: `Victim` returns false iff the size counter is 0; for every
well-formed state with positive size the sweep terminates and returns
a victim that was present with its ref bit clear at selection
(`VictimPost.v_cleared` leaves its entry `(false, false)`), clears its
present bit, decrements `size` by one, and clears the ref bit of every
present-and-referenced slot passed over (`VictimPost.passed`, with
`VictimPost.others_ref` showing ref bits are never set). -/
theorem victim_false_iff_size_zero (s : ClockState) (hwf : ReplacerWF s) :
    ((ClockReplacer.Victim s).1 = none ↔ s.size = 0) ∧
    (s.size = 0 → ClockReplacer.Victim s = (none, s)) ∧
    (s.size ≠ 0 → ∃ v c',
      ClockReplacer.Victim s
          = (some v, { s with clock := c', hand := v, size := s.size - 1 }) ∧
      VictimPost s.clockLen s.clock s.hand v c') := by
  by_cases hs : s.size = 0
  · have hv : ClockReplacer.Victim s = (none, s) := by
      unfold ClockReplacer.Victim; rw [if_pos hs]
    exact ⟨⟨fun _ => hs, fun _ => by rw [hv]⟩, fun _ => hv, fun h => absurd hs h⟩
  · obtain ⟨v, c', heq, post⟩ := Victim_of_size_pos s hwf hs
    refine ⟨⟨fun h => ?_, fun h => absurd h hs⟩,
      fun h => absurd h hs, fun _ => ⟨v, c', heq, post⟩⟩
    rw [heq] at h
    simp at h

/-- Witness for C5 at a one-slot replacer whose slot is present with a
set ref bit (the sweep must clear it and lap once). -/
theorem victim_false_iff_size_zero_witness :
    ((ClockReplacer.Victim clockOneRef).1 = none ↔ clockOneRef.size = 0) ∧
    (clockOneRef.size = 0 → ClockReplacer.Victim clockOneRef = (none, clockOneRef)) ∧
    (clockOneRef.size ≠ 0 → ∃ v c',
      ClockReplacer.Victim clockOneRef
          = (some v, { clockOneRef with clock := c', hand := v, size := clockOneRef.size - 1 }) ∧
      VictimPost clockOneRef.clockLen clockOneRef.clock clockOneRef.hand v c') :=
  victim_false_iff_size_zero clockOneRef (by decide)

/-- C3 (amended): during the sweep the hand does advance past every
inspected slot that is not chosen (both when a present slot's ref bit is
cleared and when an absent slot is skipped), but when a victim is chosen
the source returns before the hand update, so `Victim` leaves the hand
resting on the victim slot itself, not past it. -/
theorem victim_hand_rests_on_victim :
    (∀ (n fuel : Nat) (clock : Nat → Bool × Bool) (hand : Nat),
      (clock hand).1 = true → (clock hand).2 = true →
      victimLoop n (fuel + 1) clock hand
        = victimLoop n fuel (Function.update clock hand (true, false)) ((hand + 1) % n)) ∧
    (∀ (n fuel : Nat) (clock : Nat → Bool × Bool) (hand : Nat),
      (clock hand).1 = false →
      victimLoop n (fuel + 1) clock hand = victimLoop n fuel clock ((hand + 1) % n)) ∧
    (∀ (s : ClockState) (v : Nat),
      (ClockReplacer.Victim s).1 = some v → (ClockReplacer.Victim s).2.hand = v) := by
  refine ⟨?_, ?_, ?_⟩
  · intro n fuel clock hand e1 e2
    show (if (clock hand).1 = true then _ else _) = _
    rw [if_pos e1, if_pos e2]
  · intro n fuel clock hand e1
    show (if (clock hand).1 = true then _ else _) = _
    rw [if_neg (by simp [e1])]
  · intro s v h
    unfold ClockReplacer.Victim at h ⊢
    by_cases hs : s.size = 0
    · rw [if_pos hs] at h; cases h
    · rw [if_neg hs] at h ⊢
      cases hvl : victimLoop s.clockLen (s.clockLen * s.clockLen + s.clockLen)
          s.clock s.hand with
      | none => rw [hvl] at h; cases h
      | some p =>
        obtain ⟨v', c⟩ := p
        rw [hvl] at h
        exact Option.some.inj h

/-- Witness for C3's amended statement. -/
theorem victim_hand_rests_on_victim_witness :
    victimLoop 1 1 (fun _ => (true, true)) 0
        = victimLoop 1 0 (Function.update (fun _ => (true, true)) 0 (true, false))
            ((0 + 1) % 1) ∧
    victimLoop 1 1 (fun _ => (false, false)) 0
        = victimLoop 1 0 (fun _ => (false, false)) ((0 + 1) % 1) ∧
    (ClockReplacer.Victim clockTwoReady).2.hand = 0 :=
  ⟨victim_hand_rests_on_victim.1 1 0 (fun _ => (true, true)) 0 rfl rfl,
   victim_hand_rests_on_victim.2.1 1 0 (fun _ => (false, false)) 0 rfl,
   victim_hand_rests_on_victim.2.2 clockTwoReady 0 (by decide)⟩

/-- C3 counterexample: on a two-slot replacer with both slots present
and ref-clear and the hand at 0, `Victim` selects slot 0 but leaves the
hand at 0 rather than advanced past the victim to `(0 + 1) % 2 = 1`. -/
theorem victim_hand_not_advanced_past_cex :
    (ClockReplacer.Victim clockTwoReady).1 = some 0 ∧
    (ClockReplacer.Victim clockTwoReady).2.hand = 0 ∧
    ¬(ClockReplacer.Victim clockTwoReady).2.hand = (0 + 1) % 2 := by
  decide

/-- C1: on a resident, unpinned page the code performs every deletion
effect the claim lists — removes the page-table entry, pins the frame in
the replacer, pushes the frame onto the free list, deallocates the page
on disk, zeroes the buffer, invalidates `page_id` and clears the dirty
flag — but then returns `false`, where the claim (and §4.2.6 of the
spec, which calls the `false` return a bug) requires `true`. -/
theorem deletePage_success_returns_false :
    (DeletePage bpmOnePage 5).1 = false ∧
    (DeletePage bpmOnePage 5).2.page_table 5 = none ∧
    (DeletePage bpmOnePage 5).2.free_list = [0] ∧
    (DeletePage bpmOnePage 5).2.replacer.size = 0 ∧
    ((DeletePage bpmOnePage 5).2.pages 0).page_id = INVALID_PAGE_ID ∧
    ((DeletePage bpmOnePage 5).2.pages 0).is_dirty = false ∧
    (∀ b, ((DeletePage bpmOnePage 5).2.pages 0).data b = 0) ∧
    (DeletePage bpmOnePage 5).2.events = [Event.diskDealloc 5] :=
  ⟨rfl, rfl, rfl, rfl, rfl, rfl, fun _ => rfl, rfl⟩

/-- C10: `Pin`/`Unpin` guard the `clock[frame_id]` access only by
`assert(frame_id <= clock.size())`; the access is safe exactly under
`0 ≤ f < num_pages`, and `f = num_pages` passes the assertion yet
indexes out of bounds. -/
theorem clock_pin_assert_gap (s : ClockState) (f : Int) :
    ((ClockReplacer.PinChecked s f).isSome = true ↔ clockIndexInBounds s f) ∧
    ((ClockReplacer.UnpinChecked s f).isSome = true ↔ clockIndexInBounds s f) ∧
    (clockIndexInBounds s f → clockIndexAssert s f) ∧
    clockIndexAssert s (s.clockLen : Int) ∧
    ClockReplacer.PinChecked s (s.clockLen : Int) = none ∧
    ClockReplacer.UnpinChecked s (s.clockLen : Int) = none := by
  have himp : clockIndexInBounds s f → clockIndexAssert s f := by
    intro ⟨h1, h2⟩; exact ⟨h1, Nat.le_of_lt h2⟩
  have hassert : clockIndexAssert s (s.clockLen : Int) := by
    refine ⟨Int.natCast_nonneg _, ?_⟩
    rw [Int.toNat_natCast]
  have hnotin : ¬clockIndexInBounds s (s.clockLen : Int) := by
    intro ⟨_, h2⟩
    rw [Int.toNat_natCast] at h2
    omega
  refine ⟨?_, ?_, himp, hassert, ?_, ?_⟩
  · unfold ClockReplacer.PinChecked
    constructor
    · intro h
      by_cases ha : clockIndexAssert s f
      · rw [if_pos ha] at h
        by_cases hb : clockIndexInBounds s f
        · exact hb
        · rw [if_neg hb] at h; cases h
      · rw [if_neg ha] at h; cases h
    · intro hb
      rw [if_pos (himp hb), if_pos hb]; rfl
  · unfold ClockReplacer.UnpinChecked
    constructor
    · intro h
      by_cases ha : clockIndexAssert s f
      · rw [if_pos ha] at h
        by_cases hb : clockIndexInBounds s f
        · exact hb
        · rw [if_neg hb] at h; cases h
      · rw [if_neg ha] at h; cases h
    · intro hb
      rw [if_pos (himp hb), if_pos hb]; rfl
  · unfold ClockReplacer.PinChecked
    rw [if_pos hassert, if_neg hnotin]
  · unfold ClockReplacer.UnpinChecked
    rw [if_pos hassert, if_neg hnotin]

/-- Witness for C10 at a one-slot replacer: frame 0 is safe, frame 1
(`= num_pages`) passes the assertion but is out of bounds. -/
theorem clock_pin_assert_gap_witness :
    (((ClockReplacer.PinChecked (ClockReplacer.init 1) 0).isSome = true
        ↔ clockIndexInBounds (ClockReplacer.init 1) 0) ∧
     ((ClockReplacer.UnpinChecked (ClockReplacer.init 1) 0).isSome = true
        ↔ clockIndexInBounds (ClockReplacer.init 1) 0) ∧
     (clockIndexInBounds (ClockReplacer.init 1) 0
        → clockIndexAssert (ClockReplacer.init 1) 0) ∧
     clockIndexAssert (ClockReplacer.init 1) ((ClockReplacer.init 1).clockLen : Int) ∧
     ClockReplacer.PinChecked (ClockReplacer.init 1)
        ((ClockReplacer.init 1).clockLen : Int) = none ∧
     ClockReplacer.UnpinChecked (ClockReplacer.init 1)
        ((ClockReplacer.init 1).clockLen : Int) = none) ∧
    clockIndexInBounds (ClockReplacer.init 1) 0 :=
  ⟨clock_pin_assert_gap (ClockReplacer.init 1) 0, by decide⟩

/-! ### Frame-sweep lemmas for `FlushAllPages` -/

lemma flushFrame_pages_other (s : BPM) (j i : Nat) (h : i ≠ j) :
    (flushFrame s j).pages i = s.pages i := by
  simp only [flushFrame, diskWriteOp]
  split
  · exact Function.update_noteq h _ _
  · rfl

lemma flushFrame_events_mono (s : BPM) (j : Nat) {e : Event} (h : e ∈ s.events) :
    e ∈ (flushFrame s j).events := by
  simp only [flushFrame, diskWriteOp]
  split
  · exact List.mem_append_left _ h
  · exact h

lemma foldl_flush_pages_other :
    ∀ (L : List Nat) (s : BPM) (i : Nat), i ∉ L →
      ((L.foldl flushFrame s).pages i) = s.pages i := by
  intro L
  induction L with
  | nil => intro s i _; rfl
  | cons j L' ih =>
    intro s i hmem
    have hij : i ≠ j := fun h => hmem (h ▸ List.mem_cons_self j L')
    have hL' : i ∉ L' := fun h => hmem (List.mem_cons_of_mem j h)
    show ((L'.foldl flushFrame (flushFrame s j)).pages i) = s.pages i
    rw [ih (flushFrame s j) i hL', flushFrame_pages_other s j i hij]

lemma foldl_flush_events_mono :
    ∀ (L : List Nat) (s : BPM) {e : Event}, e ∈ s.events →
      e ∈ (L.foldl flushFrame s).events := by
  intro L
  induction L with
  | nil => intro s e h; exact h
  | cons j L' ih =>
    intro s e h
    exact ih (flushFrame s j) (flushFrame_events_mono s j h)

lemma flushFrame_self_dirty (s : BPM) (i : Nat)
    (hpid : (s.pages i).page_id ≠ INVALID_PAGE_ID) (hd : (s.pages i).is_dirty = true) :
    ((flushFrame s i).pages i).is_dirty = false ∧
    Event.diskWrite (s.pages i).page_id (s.pages i).data ∈ (flushFrame s i).events := by
  unfold flushFrame
  rw [if_pos ⟨hpid, hd⟩]
  unfold diskWriteOp
  constructor
  · show (Function.update s.pages i _ i).is_dirty = false
    rw [Function.update_same]
  · exact List.mem_append_right _ (List.mem_singleton.mpr rfl)

lemma foldl_flush_spec :
    ∀ (L : List Nat) (s : BPM) (i : Nat), i ∈ L → L.Nodup →
      (s.pages i).page_id ≠ INVALID_PAGE_ID → (s.pages i).is_dirty = true →
      ((L.foldl flushFrame s).pages i).is_dirty = false ∧
      Event.diskWrite (s.pages i).page_id (s.pages i).data
        ∈ (L.foldl flushFrame s).events := by
  intro L
  induction L with
  | nil => intro s i hmem _ _ _; cases hmem
  | cons j L' ih =>
    intro s i hmem hnd hpid hd
    obtain ⟨hjL', hnd'⟩ := List.nodup_cons.mp hnd
    rcases List.mem_cons.mp hmem with rfl | hmem'
    · have hself := flushFrame_self_dirty s i hpid hd
      constructor
      · show ((L'.foldl flushFrame (flushFrame s i)).pages i).is_dirty = false
        rw [foldl_flush_pages_other L' _ i hjL']
        exact hself.1
      · exact foldl_flush_events_mono L' _ hself.2
    · have hij : i ≠ j := fun h => hjL' (h ▸ hmem')
      have hpg : (flushFrame s j).pages i = s.pages i := flushFrame_pages_other s j i hij
      have hres := ih (flushFrame s j) i hmem' hnd'
        (by rw [hpg]; exact hpid) (by rw [hpg]; exact hd)
      rw [hpg] at hres
      exact hres

/-- C2: (a) when the replacement procedure evicts a dirty victim, the
event trace contains the disk write of the victim's bytes under its old
page id strictly before the `page_id_` assignment that installs the new
id; (b) after `FlushAllPages` every frame that was resident and dirty at
the call has its bytes in the trace as a disk write and its dirty flag
cleared. -/
theorem dirty_writeback_before_reuse :
    (∀ (s : BPM) (pid : Int) (np : Bool) (v : Nat),
      s.free_list = [] →
      (ClockReplacer.Victim s.replacer).1 = some v →
      (s.pages v).is_dirty = true →
      ∃ mid,
        (ReplaceAndUpdate s pid np).2.events
          = s.events ++ Event.diskWrite (s.pages v).page_id (s.pages v).data
              :: (mid ++ [Event.setPageId v pid]) ∧
        ((ReplaceAndUpdate s pid np).2.pages v).page_id = pid) ∧
    (∀ (s : BPM) (i : Nat),
      i < s.pool_size →
      (s.pages i).page_id ≠ INVALID_PAGE_ID →
      (s.pages i).is_dirty = true →
      ((FlushAllPages s).pages i).is_dirty = false ∧
      Event.diskWrite (s.pages i).page_id (s.pages i).data ∈ (FlushAllPages s).events) := by
  constructor
  · intro s pid np v hfree hvic hdirty
    rcases hv : ClockReplacer.Victim s.replacer with ⟨ov, r⟩
    rw [hv] at hvic
    simp only at hvic
    subst hvic
    cases np with
    | true =>
      refine ⟨[], ?_, ?_⟩ <;>
        simp [ReplaceAndUpdate, hfree, hv, raFinalize, diskWriteOp, hdirty]
    | false =>
      refine ⟨[Event.diskRead pid], ?_, ?_⟩ <;>
        simp [ReplaceAndUpdate, hfree, hv, raFinalize, diskWriteOp, hdirty]
  · intro s i hi hpid hd
    unfold FlushAllPages
    exact foldl_flush_spec (List.range s.pool_size) s i
      (List.mem_range.mpr hi) (List.nodup_range _) hpid hd

/-- Witness for C2 at a one-frame pool holding dirty page 3. -/
theorem dirty_writeback_before_reuse_witness :
    (∃ mid,
      (ReplaceAndUpdate bpmDirtyVictim 9 false).2.events
        = bpmDirtyVictim.events
            ++ Event.diskWrite (bpmDirtyVictim.pages 0).page_id (bpmDirtyVictim.pages 0).data
              :: (mid ++ [Event.setPageId 0 9]) ∧
      ((ReplaceAndUpdate bpmDirtyVictim 9 false).2.pages 0).page_id = 9) ∧
    (((FlushAllPages bpmDirtyVictim).pages 0).is_dirty = false ∧
      Event.diskWrite (bpmDirtyVictim.pages 0).page_id (bpmDirtyVictim.pages 0).data
        ∈ (FlushAllPages bpmDirtyVictim).events) :=
  ⟨dirty_writeback_before_reuse.1 bpmDirtyVictim 9 false 0 rfl rfl rfl,
   dirty_writeback_before_reuse.2 bpmDirtyVictim 0 (by decide) (by decide) rfl⟩

/-- The replacement procedure invoked for a new page (`new_page = true`)
hands back a frame whose buffer is zero, dirty, pinned once, and holding
the requested id — from the free list (whose frames hold zeroed buffers
by `FreeListZero`) or from the replacer (where `ResetMemory` zeroes). -/
lemma replace_new_spec (s : BPM) (pid : Int)
    (hwf : ReplacerWF s.replacer) (hz : FreeListZero s)
    (hcand : ¬(s.free_list = [] ∧ s.replacer.size = 0)) :
    (∀ b, ((ReplaceAndUpdate s pid true).2.pages (ReplaceAndUpdate s pid true).1).data b = 0) ∧
    ((ReplaceAndUpdate s pid true).2.pages (ReplaceAndUpdate s pid true).1).is_dirty = true ∧
    ((ReplaceAndUpdate s pid true).2.pages (ReplaceAndUpdate s pid true).1).pin_count = 1 ∧
    ((ReplaceAndUpdate s pid true).2.pages (ReplaceAndUpdate s pid true).1).page_id = pid := by
  cases hfl : s.free_list with
  | cons fhead rest =>
    have hzf : ∀ b, (s.pages fhead).data b = 0 :=
      hz fhead (by rw [hfl]; exact List.mem_cons_self _ _)
    refine ⟨fun b => ?_, ?_, ?_, ?_⟩ <;>
      simp [ReplaceAndUpdate, hfl, raFinalize, Function.update_same]
    exact hzf b
  | nil =>
    have hsz : s.replacer.size ≠ 0 := fun h0 => hcand ⟨hfl, h0⟩
    obtain ⟨v, c', hveq, _⟩ := Victim_of_size_pos s.replacer hwf hsz
    by_cases hd : (s.pages v).is_dirty = true <;>
      refine ⟨fun b => ?_, ?_, ?_, ?_⟩ <;>
        simp [ReplaceAndUpdate, hfl, hveq, raFinalize, diskWriteOp, hd,
          Function.update_same]

/-- C4: `NewPage` yields null with the out-parameter set to
`INVALID_PAGE_ID` — leaving the state (hence the disk allocator)
untouched — iff the free list is empty and the replacer has no
candidate; otherwise it returns a frame whose buffer is entirely zero,
dirty, with pin count 1 and with the id freshly taken from
`AllocatePage` — also when the frame came from the free list. -/
theorem newPage_null_iff_no_candidate (s : BPM)
    (hwf : ReplacerWF s.replacer) (hz : FreeListZero s) :
    (s.free_list = [] ∧ s.replacer.size = 0 → NewPage s = (none, INVALID_PAGE_ID, s)) ∧
    (¬(s.free_list = [] ∧ s.replacer.size = 0) →
      ∃ f, (NewPage s).1 = some f ∧ (NewPage s).2.1 = s.disk.nextPageId ∧
        (∀ b, ((NewPage s).2.2.pages f).data b = 0) ∧
        ((NewPage s).2.2.pages f).is_dirty = true ∧
        ((NewPage s).2.2.pages f).pin_count = 1 ∧
        ((NewPage s).2.2.pages f).page_id = s.disk.nextPageId) := by
  constructor
  · intro h
    unfold NewPage
    rw [if_pos h]
  · intro h
    have hra := replace_new_spec
      { s with disk := { s.disk with nextPageId := s.disk.nextPageId + 1 }
               events := s.events ++ [Event.diskAlloc s.disk.nextPageId] }
      s.disk.nextPageId hwf (fun g hg b => hz g hg b) h
    refine ⟨(ReplaceAndUpdate
      { s with disk := { s.disk with nextPageId := s.disk.nextPageId + 1 }
               events := s.events ++ [Event.diskAlloc s.disk.nextPageId] }
      s.disk.nextPageId true).1, ?_⟩
    unfold NewPage
    rw [if_neg h]
    exact ⟨rfl, rfl, hra.1, hra.2.1, hra.2.2.1, hra.2.2.2⟩

/-- Witness for C4 at a fresh two-frame pool. -/
theorem newPage_null_iff_no_candidate_witness :
    ∃ f, (NewPage bpmFresh).1 = some f ∧ (NewPage bpmFresh).2.1 = bpmFresh.disk.nextPageId ∧
      (∀ b, ((NewPage bpmFresh).2.2.pages f).data b = 0) ∧
      ((NewPage bpmFresh).2.2.pages f).is_dirty = true ∧
      ((NewPage bpmFresh).2.2.pages f).pin_count = 1 ∧
      ((NewPage bpmFresh).2.2.pages f).page_id = bpmFresh.disk.nextPageId :=
  (newPage_null_iff_no_candidate bpmFresh (by decide) (fun _ _ _ => rfl)).2 (by decide)

/-- C6: for a resident page, `UnpinPage` fails leaving everything
unchanged when the pin count is already non-positive; otherwise it
decrements the pin count, calls the replacer's `Unpin` exactly when the
count reaches zero, ORs the dirty argument into the frame's dirty flag
(never clearing a set flag) and returns true. -/
theorem unpin_decrements_and_marks (s : BPM) (pid : Int) (f : Nat) (d : Bool)
    (hres : s.page_table pid = some f) :
    ((s.pages f).pin_count ≤ 0 → UnpinPage s pid d = some (false, s)) ∧
    (0 < (s.pages f).pin_count →
      ∃ s', UnpinPage s pid d = some (true, s') ∧
        (s'.pages f).pin_count = (s.pages f).pin_count - 1 ∧
        (s'.pages f).is_dirty = ((s.pages f).is_dirty || d) ∧
        ((s.pages f).is_dirty = true → (s'.pages f).is_dirty = true) ∧
        s'.replacer
          = (if (s.pages f).pin_count - 1 = 0 then unpinEffect s.replacer f
             else s.replacer) ∧
        (∀ j, j ≠ f → s'.pages j = s.pages j) ∧
        s'.page_table = s.page_table ∧ s'.free_list = s.free_list) := by
  constructor
  · intro hle
    simp [UnpinPage, hres, if_pos hle]
  · intro hpos
    have hnle : ¬(s.pages f).pin_count ≤ 0 := by omega
    refine ⟨{ s with
        pages :=
          Function.update s.pages f
            ({ s.pages f with
                pin_count := (s.pages f).pin_count - 1
                is_dirty := (s.pages f).is_dirty || d })
        replacer :=
          if (s.pages f).pin_count - 1 = 0 then unpinEffect s.replacer f
          else s.replacer }, ?_, ?_, ?_, ?_, rfl, ?_, rfl, rfl⟩
    · simp [UnpinPage, hres, if_neg hnle]
    · simp [Function.update_same]
    · simp [Function.update_same]
    · intro hdset
      simp [Function.update_same, hdset]
    · intro j hj
      exact Function.update_noteq hj _ _

/-- Witness for C6 at a pool holding pinned dirty page 7. -/
theorem unpin_decrements_and_marks_witness :
    ∃ s', UnpinPage bpmPinnedDirty 7 false = some (true, s') ∧
      (s'.pages 0).pin_count = (bpmPinnedDirty.pages 0).pin_count - 1 ∧
      (s'.pages 0).is_dirty = ((bpmPinnedDirty.pages 0).is_dirty || false) ∧
      ((bpmPinnedDirty.pages 0).is_dirty = true → (s'.pages 0).is_dirty = true) ∧
      s'.replacer
        = (if (bpmPinnedDirty.pages 0).pin_count - 1 = 0
           then unpinEffect bpmPinnedDirty.replacer 0
           else bpmPinnedDirty.replacer) ∧
      (∀ j, j ≠ 0 → s'.pages j = bpmPinnedDirty.pages j) ∧
      s'.page_table = bpmPinnedDirty.page_table ∧
      s'.free_list = bpmPinnedDirty.free_list :=
  (unpin_decrements_and_marks bpmPinnedDirty 7 0 false rfl).2 (by decide)

/-- C7: `FlushPage` returns false iff the page is not in the page
table; on a resident page it returns true and changes neither the
frame's pin count nor its page id nor any other frame nor the replacer
or page table — the only change is clearing the dirty flag (and writing
the bytes to disk) when the frame was dirty with a valid id, and no
change at all otherwise. -/
theorem flushPage_only_clears_dirty (s : BPM) (pid : Int) :
    ((FlushPage s pid).1 = false ↔ s.page_table pid = none) ∧
    (∀ f, s.page_table pid = some f →
      ∃ s', FlushPage s pid = (true, s') ∧
        s'.replacer = s.replacer ∧
        s'.page_table = s.page_table ∧
        s'.free_list = s.free_list ∧
        (s'.pages f).pin_count = (s.pages f).pin_count ∧
        (s'.pages f).page_id = (s.pages f).page_id ∧
        (s'.pages f).data = (s.pages f).data ∧
        (∀ j, j ≠ f → s'.pages j = s.pages j) ∧
        ((s.pages f).page_id ≠ INVALID_PAGE_ID ∧ (s.pages f).is_dirty = true →
          (s'.pages f).is_dirty = false ∧
          s'.events = s.events ++ [Event.diskWrite (s.pages f).page_id (s.pages f).data]) ∧
        (¬((s.pages f).page_id ≠ INVALID_PAGE_ID ∧ (s.pages f).is_dirty = true) →
          s' = s)) := by
  constructor
  · cases hpt : s.page_table pid with
    | none => simp [FlushPage, hpt]
    | some f =>
      simp only [FlushPage, hpt]
      split <;> simp
  · intro f hres
    by_cases hc : (s.pages f).page_id ≠ INVALID_PAGE_ID ∧ (s.pages f).is_dirty = true
    · refine ⟨diskWriteOp
          ({ s with pages :=
              Function.update s.pages f ({ s.pages f with is_dirty := false }) })
          (s.pages f).page_id (s.pages f).data,
        ?_, rfl, rfl, rfl, ?_, ?_, ?_, ?_, fun _ => ⟨?_, rfl⟩, fun hnc => absurd hc hnc⟩
      · simp [FlushPage, hres, if_pos hc]
      · simp [diskWriteOp, Function.update_same]
      · simp [diskWriteOp, Function.update_same]
      · simp [diskWriteOp, Function.update_same]
      · intro j hj
        simp [diskWriteOp, Function.update_noteq hj]
      · simp [diskWriteOp, Function.update_same]
    · refine ⟨s, by simp [FlushPage, hres, if_neg hc], rfl, rfl, rfl, rfl, rfl, rfl,
        fun _ _ => rfl, fun h1 => absurd h1 hc, fun _ => rfl⟩

/-- Witness for C7 at a pool holding pinned dirty page 7. -/
theorem flushPage_only_clears_dirty_witness :
    ((FlushPage bpmPinnedDirty 7).1 = false ↔ bpmPinnedDirty.page_table 7 = none) ∧
    (∃ s', FlushPage bpmPinnedDirty 7 = (true, s') ∧
      s'.replacer = bpmPinnedDirty.replacer ∧
      s'.page_table = bpmPinnedDirty.page_table ∧
      s'.free_list = bpmPinnedDirty.free_list ∧
      (s'.pages 0).pin_count = (bpmPinnedDirty.pages 0).pin_count ∧
      (s'.pages 0).page_id = (bpmPinnedDirty.pages 0).page_id ∧
      (s'.pages 0).data = (bpmPinnedDirty.pages 0).data ∧
      (∀ j, j ≠ 0 → s'.pages j = bpmPinnedDirty.pages j) ∧
      ((bpmPinnedDirty.pages 0).page_id ≠ INVALID_PAGE_ID ∧
          (bpmPinnedDirty.pages 0).is_dirty = true →
        (s'.pages 0).is_dirty = false ∧
        s'.events = bpmPinnedDirty.events
          ++ [Event.diskWrite (bpmPinnedDirty.pages 0).page_id
                (bpmPinnedDirty.pages 0).data]) ∧
      (¬((bpmPinnedDirty.pages 0).page_id ≠ INVALID_PAGE_ID ∧
          (bpmPinnedDirty.pages 0).is_dirty = true) →
        s' = bpmPinnedDirty)) :=
  ⟨(flushPage_only_clears_dirty bpmPinnedDirty 7).1,
   (flushPage_only_clears_dirty bpmPinnedDirty 7).2 0 rfl⟩

/-- C9: `UnpinPage` dereferences the page-table lookup with no absence
check — the undefined-behaviour case is exactly a lookup miss — and
under the precondition that the page is resident the lookup succeeds, so
the failure case is unreachable. -/
theorem unpin_lookup_unchecked (s : BPM) (pid : Int) (d : Bool) :
    (UnpinPage s pid d = none ↔ s.page_table pid = none) ∧
    (∀ f, s.page_table pid = some f → (UnpinPage s pid d).isSome = true) := by
  cases hpt : s.page_table pid with
  | none => simp [UnpinPage, hpt]
  | some f =>
    constructor
    · simp only [UnpinPage, hpt]
      split <;> simp
    · intro f' _
      simp only [UnpinPage, hpt]
      split <;> simp

/-- Witness for C9 at a pool holding unpinned page 5. -/
theorem unpin_lookup_unchecked_witness :
    ((UnpinPage bpmOnePage 5 false = none ↔ bpmOnePage.page_table 5 = none) ∧
      (∀ f, bpmOnePage.page_table 5 = some f →
        (UnpinPage bpmOnePage 5 false).isSome = true)) ∧
    (UnpinPage bpmOnePage 5 false).isSome = true :=
  ⟨unpin_lookup_unchecked bpmOnePage 5 false,
   (unpin_lookup_unchecked bpmOnePage 5 false).2 0 rfl⟩

/-! ### Bit-map lemmas for the block page -/

lemma mask_eq_two_pow {j : Nat} (hj : j < 8) : N_TH_BIT_MASK j = 2 ^ (7 - j) := by
  interval_cases j <;> rfl

lemma or_mask_test (b : Nat) {j : Nat} (hj : j < 8) :
    (b ||| N_TH_BIT_MASK j) &&& N_TH_BIT_MASK j ≠ 0 := by
  rw [mask_eq_two_pow hj, Nat.and_two_pow, Nat.testBit_lor, Nat.testBit_two_pow_self]
  simp

lemma and_compl_mask_test (b : Nat) {j : Nat} (hj : j < 8) :
    (b &&& (255 ^^^ N_TH_BIT_MASK j)) &&& N_TH_BIT_MASK j = 0 := by
  have ht : 7 - j < 8 := by omega
  have h255 : (255 : Nat) = 2 ^ 8 - 1 := by norm_num
  rw [mask_eq_two_pow hj, Nat.and_two_pow, Nat.testBit_land, Nat.testBit_xor, h255,
    Nat.testBit_two_pow_sub_one, Nat.testBit_two_pow_self]
  simp [ht]

lemma get_set_bit (arr : Nat → Nat) (i : Nat) :
    GET_N_TH_BIT (SET_N_TH_BIT arr i) i = true := by
  have hj : i % 8 < 8 := Nat.mod_lt _ (by norm_num)
  unfold GET_N_TH_BIT SET_N_TH_BIT
  rw [Function.update_same]
  simp only [decide_eq_true_eq]
  exact or_mask_test _ hj

lemma get_unset_bit (arr : Nat → Nat) (i : Nat) :
    GET_N_TH_BIT (UNSET_N_TH_BIT arr i) i = false := by
  have hj : i % 8 < 8 := Nat.mod_lt _ (by norm_num)
  unfold GET_N_TH_BIT UNSET_N_TH_BIT
  rw [Function.update_same]
  simp only [decide_eq_false_iff_not, not_not]
  exact and_compl_mask_test _ hj

/-- C8: for a valid slot index, `Insert` fails iff the readable bit is
already set; a successful `Insert` makes the slot readable and occupied
and stores the pair; `Remove` clears only the readable bit, leaving the
occupied bit as it was (tombstone); and an `Insert` right after a
`Remove` at the same slot succeeds. -/
theorem blockPage_slot_contract {K V : Type} (pairSize : Nat)
    (p : HashTableBlockPage K V) (i : Nat) (k : K) (v : V)
    (hi : i < BLOCK_ARRAY_SIZE pairSize) :
    ((p.Insert i k v).1 = false ↔ p.IsReadable i = true) ∧
    ((p.Insert i k v).1 = true →
      (p.Insert i k v).2.IsReadable i = true ∧
      (p.Insert i k v).2.IsOccupied i = true ∧
      (p.Insert i k v).2.KeyAt i = k ∧
      (p.Insert i k v).2.ValueAt i = v) ∧
    (p.Remove i).IsReadable i = false ∧
    (p.Remove i).IsOccupied i = p.IsOccupied i ∧
    ((p.Remove i).Insert i k v).1 = true := by
  refine ⟨?_, ?_, ?_, rfl, ?_⟩
  · unfold HashTableBlockPage.Insert HashTableBlockPage.IsReadable
    by_cases h : GET_N_TH_BIT p.readable i = true
    · rw [if_pos h]
      simp [h]
    · rw [if_neg h]
      simp [h]
  · intro hsucc
    by_cases h : GET_N_TH_BIT p.readable i = true
    · rw [HashTableBlockPage.Insert, if_pos h] at hsucc
      cases hsucc
    · have heq : p.Insert i k v
          = (true,
            { p with
              occupied := SET_N_TH_BIT p.occupied i
              readable := SET_N_TH_BIT p.readable i
              array := Function.update p.array i (k, v) }) := by
        rw [HashTableBlockPage.Insert, if_neg h]
      rw [heq]
      refine ⟨get_set_bit _ _, get_set_bit _ _, ?_, ?_⟩
      · simp [HashTableBlockPage.KeyAt]
      · simp [HashTableBlockPage.ValueAt]
  · unfold HashTableBlockPage.Remove HashTableBlockPage.IsReadable
    exact get_unset_bit _ _
  · have h : GET_N_TH_BIT (p.Remove i).readable i = false := get_unset_bit _ _
    rw [HashTableBlockPage.Insert, if_neg (by simp [h])]

/-- Witness for C8 at slot 3 of an empty block page with 8-byte pairs. -/
theorem blockPage_slot_contract_witness :
    ((blockEmpty.Insert 3 11 22).1 = false ↔ blockEmpty.IsReadable 3 = true) ∧
    ((blockEmpty.Insert 3 11 22).1 = true →
      (blockEmpty.Insert 3 11 22).2.IsReadable 3 = true ∧
      (blockEmpty.Insert 3 11 22).2.IsOccupied 3 = true ∧
      (blockEmpty.Insert 3 11 22).2.KeyAt 3 = 11 ∧
      (blockEmpty.Insert 3 11 22).2.ValueAt 3 = 22) ∧
    (blockEmpty.Remove 3).IsReadable 3 = false ∧
    (blockEmpty.Remove 3).IsOccupied 3 = blockEmpty.IsOccupied 3 ∧
    ((blockEmpty.Remove 3).Insert 3 11 22).1 = true :=
  blockPage_slot_contract 8 blockEmpty 3 11 22 (by decide)

/-! ### The hypotheses used above are genuine invariants

`ReplacerWF` holds initially and is preserved by every replacer
operation (for in-range frame ids, which C10's analysis shows is what
in-bounds calls require); `FreeListZero` holds initially and is
re-established by `DeletePage`, the only operation that returns a frame
to the free list. -/

lemma replacerWF_init (n : Nat) : ReplacerWF (ClockReplacer.init n) := by
  constructor
  · show 0 = presentCnt n (fun _ => (false, false))
    unfold presentCnt cntP
    simp
  · intro h
    exact Nat.pos_of_ne_zero h

lemma pinEffect_WF (s : ClockState) (f : Nat) (hf : f < s.clockLen)
    (hwf : ReplacerWF s) : ReplacerWF (pinEffect s f) := by
  obtain ⟨hcnt, hhand⟩ := hwf
  unfold pinEffect
  by_cases hp : (s.clock f).1 = true
  · rw [if_pos hp]
    refine ⟨?_, hhand⟩
    show s.size - 1 = presentCnt s.clockLen (Function.update s.clock f (false, false))
    have hdrop : presentCnt s.clockLen (Function.update s.clock f (false, false)) + 1
        = presentCnt s.clockLen s.clock :=
      @cntP_update_drop s.clockLen s.clock (fun e => e.1) f (false, false) hf hp rfl
    omega
  · rw [if_neg hp]
    refine ⟨?_, hhand⟩
    show s.size = presentCnt s.clockLen (Function.update s.clock f ((s.clock f).1, false))
    have hself : presentCnt s.clockLen (Function.update s.clock f ((s.clock f).1, false))
        = presentCnt s.clockLen s.clock := cntP_update_self rfl
    rw [hcnt, hself]

lemma unpinEffect_WF (s : ClockState) (f : Nat) (hf : f < s.clockLen)
    (hwf : ReplacerWF s) : ReplacerWF (unpinEffect s f) := by
  obtain ⟨hcnt, hhand⟩ := hwf
  unfold unpinEffect
  by_cases hp : (s.clock f).1 = true
  · rw [if_pos hp]
    refine ⟨?_, hhand⟩
    show s.size = presentCnt s.clockLen (Function.update s.clock f (true, true))
    have hself : presentCnt s.clockLen (Function.update s.clock f (true, true))
        = presentCnt s.clockLen s.clock := cntP_update_self (by simp [hp])
    rw [hcnt, hself]
  · rw [if_neg hp]
    refine ⟨?_, hhand⟩
    show s.size + 1 = presentCnt s.clockLen (Function.update s.clock f (true, true))
    have hpf : (s.clock f).1 = false := by
      cases hcc : (s.clock f).1
      · rfl
      · exact absurd hcc hp
    have hkey : presentCnt s.clockLen
          (Function.update (Function.update s.clock f (true, true)) f (s.clock f)) + 1
        = presentCnt s.clockLen (Function.update s.clock f (true, true)) :=
      @cntP_update_drop s.clockLen (Function.update s.clock f (true, true))
        (fun e => e.1) f (s.clock f) hf (by rw [Function.update_same]) (by simp [hpf])
    rw [Function.update_idem, Function.update_eq_self] at hkey
    omega

lemma victim_WF (s : ClockState) (hwf : ReplacerWF s) :
    ReplacerWF (ClockReplacer.Victim s).2 := by
  by_cases hs : s.size = 0
  · unfold ClockReplacer.Victim
    rw [if_pos hs]
    exact hwf
  · obtain ⟨v, c', heq, post⟩ := Victim_of_size_pos s hwf hs
    rw [heq]
    refine ⟨?_, fun _ => post.v_lt⟩
    show s.size - 1 = presentCnt s.clockLen c'
    have hc := post.cnt
    have h1 := hwf.1
    omega

lemma freeListZero_init (n : Nat) (d : DiskManager) : FreeListZero (BPM.init n d) :=
  fun _ _ _ => rfl

lemma deletePage_freeListZero (s : BPM) (pid : Int) (hz : FreeListZero s) :
    FreeListZero (DeletePage s pid).2 := by
  cases hpt : s.page_table pid with
  | none =>
    simp only [DeletePage, hpt]
    exact fun g hg b => hz g hg b
  | some index =>
    by_cases hpin : (s.pages index).pin_count > 0
    · simp only [DeletePage, hpt, if_pos hpin]
      exact hz
    · simp only [DeletePage, hpt, if_neg hpin]
      intro g hg b
      by_cases hgi : g = index
      · subst hgi
        simp [Function.update_same]
      · simp only [Function.update_noteq hgi]
        rcases List.mem_append.mp hg with hgs | hgi'
        · exact hz g hgs b
        · exact absurd (by simpa using hgi') hgi

end BusTub
